import Mathlib

/-!
Shallow embedding of the repolink-zip service (GitHub folder → ZIP archive).

The definitions below are translated from the Python source:
  * `src/utils/github_api.py`        (class GitHubAPI)
  * `src/controllers/github_controller.py`

Python string primitives (`str.replace`, `str.lstrip`, the `in` operator,
`str.strip`, `str.split`) are modelled on `List Char` exactly as CPython
evaluates them on the inputs used by the service.
-/

namespace RepoZip

/-- Boolean test that the first character list starts the second
(the prefix test used by the substring scan below). -/
def startsWithL : List Char → List Char → Bool
  | [], _ => true
  | _ :: _, [] => false
  | a :: as, b :: bs => a == b && startsWithL as bs

/-- Boolean substring occurrence test on character lists, scanning every
position left to right; this is the semantics of the Python operator
`needle in haystack` on strings. -/
def listIsSub (n : List Char) : List Char → Bool
  | [] => startsWithL n []
  | c :: rest => startsWithL n (c :: rest) || listIsSub n rest

/-- Python `needle in haystack` on strings. -/
def pyIn (needle haystack : String) : Bool :=
  listIsSub needle.toList haystack.toList

/-- Scanner for occurrence deletion: when `skip` is positive the character
belongs to an occurrence already matched and is discarded; at `skip = 0`,
a match of `n` starting here discards the current character and arms the
skip counter for the remaining `n.length - 1` matched characters, and a
non-match emits the character. -/
def delOccAux (n : List Char) : Nat → List Char → List Char
  | _, [] => []
  | k + 1, _ :: rest => delOccAux n k rest
  | 0, c :: rest =>
    if startsWithL n (c :: rest) then delOccAux n (n.length - 1) rest
    else c :: delOccAux n 0 rest

/-- Python `s.replace(needle, "")`: delete every non-overlapping occurrence
of `n`, scanning left to right and resuming after each deleted occurrence
(the service only calls it with a nonempty needle). -/
def delOcc (n l : List Char) : List Char :=
  delOccAux n 0 l

/-- Python `s.lstrip("/")`: drop every leading slash. -/
def lstripSlash (l : List Char) : List Char :=
  l.dropWhile (fun c => c == '/')

/-- Archive-relative path as the code computes it (`_sync_add_folder_to_zip`
and `_async_add_folder_to_zip`, src/utils/github_api.py lines 268-273):
`rel_path = item["path"]` and, when `base_folder` is truthy,
`rel_path = rel_path.replace(base_folder, "").lstrip("/")`. -/
def stripRel (baseFolder p : String) : String :=
  if baseFolder = "" then p
  else String.mk (lstripSlash (delOcc baseFolder.toList p.toList))

/-- Removal of a leading occurrence of `n` only: if `n` starts `l`, drop it;
otherwise leave `l` unchanged. -/
def dropStart (n l : List Char) : List Char :=
  if startsWithL n l then l.drop n.length else l

/-- Spec-side archive-relative path, following the wording of the spec: the
discovered absolute path with the originally requested root path removed as
a leading prefix only, then any leading slash removed, and no other part of
the path altered. -/
def specRelPath (baseFolder p : String) : String :=
  if baseFolder = "" then p
  else String.mk (lstripSlash (dropStart baseFolder.toList p.toList))

/-! ## Repository tree and the ZIP building recursion

`create_zip_from_folder` lists the requested folder and hands its contents
to `_sync_add_folder_to_zip` (or the async twin of the same shape), which
walks items in order: a `file` item is fetched and written to the archive
under its stripped relative path; a `dir` item is listed and recursed into
with the same `base_folder`. The GitHub tree reachable from the requested
folder is modelled as a finite tree of entries; a successful listing of a
directory returns its children (the claims assume no per-file fetch
fails, so fetching is a total function from download URL to bytes). -/

/-- One entry of a directory listing: a file with its repository path and
download URL, or a directory with its repository path and (once listed)
its children. -/
inductive FsEntry where
  | file (path : String) (url : String) : FsEntry
  | dir (path : String) (children : List FsEntry) : FsEntry
deriving Repr

/-- The flat list of discovered files `(path, url)`, in the order the
recursive walk of `_sync_add_folder_to_zip` encounters them. -/
def flattenFiles : List FsEntry → List (String × String)
  | [] => []
  | .file p u :: rest => (p, u) :: flattenFiles rest
  | .dir _ ch :: rest => flattenFiles ch ++ flattenFiles rest

/-- Embedding of `_sync_count_files` (src/utils/github_api.py lines
252-263): one per file item, plus the recursive count of each directory. -/
def countFiles : List FsEntry → Nat
  | [] => 0
  | .file _ _ :: rest => 1 + countFiles rest
  | .dir _ ch :: rest => countFiles ch + countFiles rest

/-- Embedding of `_sync_add_folder_to_zip` (src/utils/github_api.py lines
265-285): the sequence of `(entry name, entry bytes)` pairs written to the
archive by `zip_file.writestr`, in write order. `fetch` maps a download
URL to the bytes the (successful) fetch returns. -/
def addFolderToZip (base : String) (fetch : String → String) :
    List FsEntry → List (String × String)
  | [] => []
  | .file p u :: rest =>
      (stripRel base p, fetch u) :: addFolderToZip base fetch rest
  | .dir _ ch :: rest =>
      addFolderToZip base fetch ch ++ addFolderToZip base fetch rest

/-! ## Archive filename (`github_controller.py` lines 31-33 and 90-92) -/

/-- Python `s.strip("/")`: drop every leading and every trailing slash. -/
def pyStripSlashes (s : String) : String :=
  String.mk (((s.toList.dropWhile (fun c => c == '/')).reverse.dropWhile
      (fun c => c == '/')).reverse)

/-- Python `s.split(sep)` for a one-character separator: the chunks between
separator occurrences, keeping empty chunks, with `[""]` for the empty
string. -/
def splitChar (sep : Char) : List Char → List (List Char)
  | [] => [[]]
  | c :: rest =>
    let r := splitChar sep rest
    if c == sep then [] :: r
    else
      match r with
      | [] => [[c]]
      | h :: t => (c :: h) :: t

/-- Embedding of the filename computation in `download_folder_as_zip` and
`_execute_download_task`:
`folder_name = folder_path.strip("/").split("/")[-1] if folder_path.strip("/") else repo`
followed by
`filename = f"{owner}_{repo}_{folder_name}.zip"` (braces as in the f-string). -/
def mkFilename (owner repo folderPath : String) : String :=
  let stripped := pyStripSlashes folderPath
  let folderName :=
    if stripped = "" then repo
    else String.mk ((splitChar '/' stripped.toList).getLastD [])
  owner ++ "_" ++ repo ++ "_" ++ folderName ++ ".zip"

/-- Spec-side last path segment: the text of the path after its final
slash (the whole path when it has no slash). -/
def lastPathSegment : List Char → List Char
  | [] => []
  | c :: rest =>
    if c = '/' then lastPathSegment rest
    else if '/' ∈ rest then lastPathSegment rest
    else c :: rest

/-! ## Content cache (`_add_to_cache` / `_get_from_cache`, lines 327-343)

The cache is the Python dict `self._cache` mapping a key to
`{"timestamp": time.time(), "data": data}`; it is modelled as an
association list in insertion order, with assignment replacing the value
of an existing key in place. Timestamps and the TTL are integers (the
claims only compare them). -/

/-- One stored cache value together with its insertion timestamp. -/
structure CacheItem (α : Type) where
  timestamp : Int
  data : α
deriving DecidableEq, Repr

/-- The in-memory cache dict. -/
abbrev Cache (α : Type) := List (String × CacheItem α)

/-- Python dict assignment `d[k] = v`: replace the value of an existing
key, else append the new binding. -/
def dictSet {α : Type} (c : Cache α) (k : String) (v : CacheItem α) : Cache α :=
  match c with
  | [] => [(k, v)]
  | (k0, v0) :: rest => if k0 = k then (k, v) :: rest else (k0, v0) :: dictSet rest k v

/-- Python dict lookup of `k` (`k in d` plus `d[k]`). -/
def dictFind {α : Type} (c : Cache α) (k : String) : Option (CacheItem α) :=
  match c with
  | [] => none
  | (k0, v0) :: rest => if k0 = k then some v0 else dictFind rest k

/-- Python `del d[k]`. -/
def dictDel {α : Type} (c : Cache α) (k : String) : Cache α :=
  match c with
  | [] => []
  | (k0, v0) :: rest => if k0 = k then rest else (k0, v0) :: dictDel rest k

/-- Embedding of `_add_to_cache`: store the data under the key with the
current time as its timestamp. -/
def addToCache {α : Type} (c : Cache α) (k : String) (v : α) (now : Int) : Cache α :=
  dictSet c k ⟨now, v⟩

/-- Embedding of `_get_from_cache`: a present entry younger than the TTL is
returned; a present entry at least TTL old is deleted and the read reports
absent; a missing key reports absent. Returns the read result and the
cache state after the read. -/
def getFromCache {α : Type} (c : Cache α) (ttl now : Int) (k : String) :
    Option α × Cache α :=
  match dictFind c k with
  | none => (none, c)
  | some it => if now - it.timestamp < ttl then (some it.data, c) else (none, dictDel c k)

/-! ## Callers of the cache and Python truthiness (claim C9)

`get_repository_contents` (lines 46-58) runs
`cached_data = self._get_from_cache(cache_key)` and returns it only under
`if cached_data:` — the Python truthiness test, false for `None` and for
an empty list. `_sync_process_file` / `_async_process_file` (lines 287-296
/ 212-221) likewise refetch under `if not file_content:`, false also for
empty bytes. On a miss both fetch from the network and `_add_to_cache`
the fetched value. The network is abstracted by the value `fetched` that
a successful fetch returns. -/

/-- Embedding of the cache-consulting shell of `get_repository_contents`:
return the cached listing only when it is truthy (present and non-empty),
else fetch and cache. -/
def getRepoContents {α : Type} (c : Cache (List α)) (ttl now : Int) (key : String)
    (fetched : List α) : List α × Cache (List α) :=
  match getFromCache c ttl now key with
  | (some d, c1) =>
    if d.isEmpty then (fetched, addToCache c1 key fetched now) else (d, c1)
  | (none, c1) => (fetched, addToCache c1 key fetched now)

/-- Embedding of the cache-consulting shell of `_sync_process_file` and
`_async_process_file` for the bytes of one file (bytes as `List Nat`):
use the cached content only when it is truthy, else fetch and cache. -/
def processFileContent (c : Cache (List Nat)) (ttl now : Int) (url : String)
    (fetched : List Nat) : List Nat × Cache (List Nat) :=
  match getFromCache c ttl now ("file:" ++ url) with
  | (some d, c1) =>
    if d.isEmpty then (fetched, addToCache c1 ("file:" ++ url) fetched now)
    else (d, c1)
  | (none, c1) => (fetched, addToCache c1 ("file:" ++ url) fetched now)

/-! ## Rate-limit state update (`_sync_update_rate_limit`, lines 319-325)

The update runs, inside `try ... except (ValueError, TypeError): pass`:
`self.rate_limit_remaining = int(headers.get("X-RateLimit-Remaining", self.rate_limit_remaining))`
`self.rate_limit_reset = int(headers.get("X-RateLimit-Reset", self.rate_limit_reset))`
A missing header hands the prior integer to `int`, which returns it; a
present but unparseable header makes `int` raise `ValueError`, aborting the
body at that assignment. `_async_update_rate_limit` (lines 244-250) is
textually identical on its response object. -/

/-- Python exception classes relevant here. -/
inductive PyExn where
  | valueError
  | typeError
  | otherError
deriving DecidableEq, Repr

/-- The mutable rate-limit fields of `GitHubAPI`. -/
structure RateLimitState where
  remaining : Int
  resetAt : Int
deriving DecidableEq, Repr

/-- Decimal digits of a string as a number, or `none` when some character
is not a digit or the string is empty. -/
def digitsVal : List Char → Option Nat
  | [] => none
  | [c] => if c.isDigit then some (c.toNat - 48) else none
  | c :: rest =>
    if c.isDigit then
      match digitsVal rest with
      | some n => some ((c.toNat - 48) * 10 ^ rest.length + n)
      | none => none
    else none

/-- Surrounding spaces of a character list, removed. -/
def stripSpaces (l : List Char) : List Char :=
  ((l.dropWhile (fun c => c == ' ')).reverse.dropWhile (fun c => c == ' ')).reverse

/-- Python `int(s)` on a string: optional surrounding spaces, an optional
sign, then decimal digits (the shape of the rate-limit headers);
anything else raises `ValueError`. -/
def pyInt (s : String) : Except PyExn Int :=
  match stripSpaces s.toList with
  | '-' :: rest =>
    match digitsVal rest with
    | some n => .ok (-(n : Int))
    | none => .error .valueError
  | '+' :: rest =>
    match digitsVal rest with
    | some n => .ok (n : Int)
    | none => .error .valueError
  | l0 =>
    match digitsVal l0 with
    | some n => .ok (n : Int)
    | none => .error .valueError

/-- Second assignment of the update body
(`self.rate_limit_reset = int(...)`), given the parsed value of the reset
header: a parse failure raises before the assignment, keeping the field. -/
def applyResetParsed (st1 : RateLimitState) (v : Except PyExn Int) :
    RateLimitState × Option PyExn :=
  match v with
  | .error e => (st1, some e)
  | .ok m => ({ st1 with resetAt := m }, none)

/-- Second assignment of the update body: a missing header hands the prior
integer to `int`, which returns it, so the field keeps its value. -/
def applyResetStep (st1 : RateLimitState) (hReset : Option String) :
    RateLimitState × Option PyExn :=
  match hReset with
  | none => (st1, none)
  | some s => applyResetParsed st1 (pyInt s)

/-- First assignment of the update body
(`self.rate_limit_remaining = int(...)`), given the parsed value of the
remaining header: a parse failure aborts the body before any assignment. -/
def applyRemParsed (st : RateLimitState) (v : Except PyExn Int)
    (hReset : Option String) : RateLimitState × Option PyExn :=
  match v with
  | .error e => (st, some e)
  | .ok n => applyResetStep { st with remaining := n } hReset

/-- The `try` body of the rate-limit update: the state after executing the
two assignments in order, paired with the exception that aborted the body,
if any. A missing header keeps the prior field (`int` of the prior integer
is itself); an unparseable header raises before its assignment, so the
effect of the first assignment survives a failure in the second. -/
def updateRateLimitBody (st : RateLimitState) (hRem hReset : Option String) :
    RateLimitState × Option PyExn :=
  match hRem with
  | none => applyResetStep st hReset
  | some s => applyRemParsed st (pyInt s) hReset

/-- Embedding of `_sync_update_rate_limit` / `_async_update_rate_limit`
as observed by the caller: `ValueError` and `TypeError` are swallowed by
the `except` clause, any other exception would propagate. -/
def updateRateLimit (st : RateLimitState) (hRem hReset : Option String) :
    Except PyExn RateLimitState :=
  match updateRateLimitBody st hRem hReset with
  | (st2, none) => .ok st2
  | (st2, some .valueError) => .ok st2
  | (st2, some .typeError) => .ok st2
  | (_, some .otherError) => .error .otherError

/-- The state the update leaves behind (exceptions inside the body are
caught with `pass`, keeping the partial effects). -/
def updateRateLimitRun (st : RateLimitState) (hRem hReset : Option String) :
    RateLimitState :=
  (updateRateLimitBody st hRem hReset).1

/-! ## Error classification of a directory-listing response (claim C3)

`_sync_get_repository_contents` (lines 87-110) first updates the
rate-limit state from the response headers and then branches on the status
code; `_async_get_repository_contents` (lines 60-85) does the same on its
aiohttp response. Every raise is a plain `Exception` whose message text
identifies the branch; the five branches are modelled as the five
constructors of `GhError`, each carrying the exact message the code
formats. `time.strftime("%Y-%m-%d %H:%M:%S", time.localtime(reset))` is
abstracted as a function `fmt` from the reset epoch to its rendering. -/

/-- The semantic error kinds of the taxonomy in the spec, one per raising
branch of the origin client. -/
inductive GhError where
  | authenticationError (msg : String)
  | rateLimitExceeded (msg : String)
  | permissionError (msg : String)
  | notFoundError (msg : String)
  | upstreamError (msg : String)
deriving DecidableEq, Repr

/-- The message carried by an error. -/
def GhError.msg : GhError → String
  | .authenticationError m => m
  | .rateLimitExceeded m => m
  | .permissionError m => m
  | .notFoundError m => m
  | .upstreamError m => m

/-- The kind of an error, without its message. -/
inductive GhKind where
  | auth
  | rateLimit
  | perm
  | notFound
  | upstream
deriving DecidableEq, Repr

/-- Forgetting the message of an error. -/
def GhError.kind : GhError → GhKind
  | .authenticationError _ => .auth
  | .rateLimitExceeded _ => .rateLimit
  | .permissionError _ => .perm
  | .notFoundError _ => .notFound
  | .upstreamError _ => .upstream

/-- An origin HTTP response as the classification code reads it: status
code, the two rate-limit headers, and the `message` field of the JSON body
(`response.json().get("message", "Unknown error")`). -/
structure HttpResponse where
  status : Nat
  rlRemainingHeader : Option String
  rlResetHeader : Option String
  jsonMessage : Option String
deriving DecidableEq, Repr

/-- Message of the 401 branch of `_sync_get_repository_contents`. -/
def authFailMsgContents : String :=
  "Authentication failed. Please provide a valid GitHub token with sufficient permissions."

/-- Message of the 403 rate-limit branch, shared by the contents fetch and
the file fetch; `t` is the strftime rendering of the reset epoch. -/
def rateLimitMsg (t : String) : String :=
  "GitHub API rate limit exceeded. Resets at " ++ t

/-- Message of the 403 permission branch of `_sync_get_repository_contents`. -/
def permMsgContents : String :=
  "Insufficient permissions. Try using a GitHub token with \x27repo\x27 scope."

/-- Message of the 404 branch of `_sync_get_repository_contents`. -/
def notFoundMsgContents : String :=
  "Repository or path not found. Check if the repository is private and you have access to it."

/-- Message of the catch-all branch of `_sync_get_repository_contents`;
`m` is the origin message from the JSON body. -/
def upstreamMsgContents (m : String) : String :=
  "Error fetching repository contents: " ++ m

/-- Message of the 401 branch of `_sync_get_file_content` (line 308). -/
def authFailMsgFile : String :=
  "Authentication failed. Please provide a valid GitHub token."

/-- Message of the 403 permission branch of `_sync_get_file_content`
(line 313). -/
def permMsgFile : String :=
  "API rate limit exceeded or insufficient permissions."

/-- Message of the catch-all branch of `_sync_get_file_content`
(line 315), carrying the status code. -/
def upstreamMsgFile (status : Nat) : String :=
  "Error downloading file: " ++ toString status

/-- Embedding of the response handling of `_sync_get_repository_contents`:
update the rate-limit state from the headers, then classify the status in
the order the code checks (401, then 403 split on remaining quota, then 404, then
any other non-200); a 200 raises nothing. Returns the updated state and
the raised error, if any. -/
def classifyContents (fmt : Int → String) (st : RateLimitState) (resp : HttpResponse) :
    RateLimitState × Option GhError :=
  let st1 := updateRateLimitRun st resp.rlRemainingHeader resp.rlResetHeader
  if resp.status = 401 then
    (st1, some (.authenticationError authFailMsgContents))
  else if resp.status = 403 then
    if st1.remaining = 0 then
      (st1, some (.rateLimitExceeded (rateLimitMsg (fmt st1.resetAt))))
    else (st1, some (.permissionError permMsgContents))
  else if resp.status = 404 then
    (st1, some (.notFoundError notFoundMsgContents))
  else if resp.status ≠ 200 then
    (st1, some (.upstreamError (upstreamMsgContents (resp.jsonMessage.getD "Unknown error"))))
  else (st1, none)

/-- Embedding of the response handling of `_sync_get_file_content`
(lines 301-317), with the same shape and order but no 404 branch. -/
def classifyFile (fmt : Int → String) (st : RateLimitState) (resp : HttpResponse) :
    RateLimitState × Option GhError :=
  let st1 := updateRateLimitRun st resp.rlRemainingHeader resp.rlResetHeader
  if resp.status = 401 then
    (st1, some (.authenticationError authFailMsgFile))
  else if resp.status = 403 then
    if st1.remaining = 0 then
      (st1, some (.rateLimitExceeded (rateLimitMsg (fmt st1.resetAt))))
    else (st1, some (.permissionError permMsgFile))
  else if resp.status ≠ 200 then
    (st1, some (.upstreamError (upstreamMsgFile resp.status)))
  else (st1, none)

/-- Spec-side classifier, following only the wording of the spec: "HTTP 401 →
AuthenticationError; HTTP 403 with remaining == 0 → RateLimitExceeded;
HTTP 403 otherwise → PermissionError; HTTP 404 → NotFoundError; any other
non-2xx → UpstreamError", checked in this order, and nothing for 200. -/
def specClassifyKind (status : Nat) (remaining : Int) : Option GhKind :=
  if status = 401 then some .auth
  else if status = 403 then
    if remaining = 0 then some .rateLimit else some .perm
  else if status = 404 then some .notFound
  else if status ≠ 200 then some .upstream
  else none

/-! ## Controller error-to-status mapping (claim C4)

`download_folder_as_zip` (src/controllers/github_controller.py lines
37-51) catches every exception and picks the HTTP status by case-sensitive
substring tests on `str(e)`, in this order: "Authentication failed" → 401,
"API rate limit exceeded" → 429, "Repository or path not found" → 404,
"insufficient permissions" → 403, otherwise 500. -/

/-- Embedding of the status-code selection of `download_folder_as_zip`. -/
def statusForError (msg : String) : Nat :=
  if pyIn "Authentication failed" msg then 401
  else if pyIn "API rate limit exceeded" msg then 429
  else if pyIn "Repository or path not found" msg then 404
  else if pyIn "insufficient permissions" msg then 403
  else 500

/-! ## Background task store and `get_download_file` (claim C10)

The controller keeps module-level dicts `running_tasks`, `completed_tasks`
(task id → task info) and `file_storage` (task id → ZIP bytes).
`get_download_file` (lines 138-150) only reads them: for a completed task
with a result carrying a filename and stored bytes it returns a fresh
`BytesIO` over those bytes together with the filename, else it raises a
404 `HTTPException`. Bytes are modelled as `List Nat`. -/

/-- The `result` dict a successful `_execute_download_task` stores
(lines 102-106). -/
structure TaskResult where
  filename : String
  size : Nat
  taskId : String
deriving DecidableEq, Repr

/-- The task-info dict, restricted to the fields `get_download_file`
reads. -/
structure TaskInfo where
  status : String
  result : Option TaskResult
deriving DecidableEq, Repr

/-- The module-level stores of the controller. -/
structure ControllerState where
  completedTasks : List (String × TaskInfo)
  fileStorage : List (String × List Nat)
deriving DecidableEq, Repr

/-- Association-list lookup, the dict read used by the controller stores. -/
def alFind {α : Type} (l : List (String × α)) (k : String) : Option α :=
  match l with
  | [] => none
  | (k0, v) :: rest => if k0 = k then some v else alFind rest k

/-- Embedding of `get_download_file`: the guards in the order the code checks them, the
stream over the stored bytes and the stored filename on success, the 404
`HTTPException` status otherwise. The store state is threaded through and
returned so that the absence of mutation is part of the statement. -/
def getDownloadFile (st : ControllerState) (taskId : String) :
    (Except Nat (List Nat × String)) × ControllerState :=
  match alFind st.completedTasks taskId with
  | some info =>
    if info.status = "completed" then
      match info.result with
      | some r =>
        match alFind st.fileStorage taskId with
        | some bytes => (.ok (bytes, r.filename), st)
        | none => (.error 404, st)
      | none => (.error 404, st)
    else (.error 404, st)
  | none => (.error 404, st)

/-! ## Helper lemmas -/

theorem strToList_append (a b : String) : (a ++ b).toList = a.toList ++ b.toList :=
  String.data_append a b

theorem strToList_mk (l : List Char) : (String.mk l).toList = l := rfl

theorem strMk_toList (s : String) : String.mk s.toList = s := by
  cases s
  rfl

theorem startsWithL_append {n s : List Char} (t : List Char)
    (h : startsWithL n s = true) : startsWithL n (s ++ t) = true := by
  induction n generalizing s with
  | nil => rfl
  | cons a as ih =>
    cases s with
    | nil => simp [startsWithL] at h
    | cons b bs =>
      simp only [startsWithL, Bool.and_eq_true] at h
      simp only [List.cons_append, startsWithL, Bool.and_eq_true]
      exact ⟨h.1, ih h.2⟩

theorem startsWithL_refl (l : List Char) : startsWithL l l = true := by
  induction l with
  | nil => rfl
  | cons a as ih => simp [startsWithL, ih]

theorem listIsSub_of_startsWith {n l : List Char} (h : startsWithL n l = true) :
    listIsSub n l = true := by
  cases l with
  | nil =>
    cases n with
    | nil => rfl
    | cons a as => simp [startsWithL] at h
  | cons c rest => simp [listIsSub, h]

theorem listIsSub_cons_of {n rest : List Char} (c : Char)
    (h : listIsSub n rest = true) : listIsSub n (c :: rest) = true := by
  simp [listIsSub, h]

theorem listIsSub_append_left {n h : List Char} (t : List Char)
    (hs : listIsSub n h = true) : listIsSub n (h ++ t) = true := by
  induction h with
  | nil =>
    cases n with
    | nil => exact listIsSub_of_startsWith (by rfl)
    | cons a as => simp [listIsSub, startsWithL] at hs
  | cons c rest ih =>
    simp only [listIsSub, Bool.or_eq_true] at hs
    rcases hs with hs | hs
    · exact listIsSub_of_startsWith (startsWithL_append t hs)
    · exact listIsSub_cons_of c (ih hs)

theorem listIsSub_append_right {n : List Char} (h : List Char) (t : List Char)
    (hs : listIsSub n t = true) : listIsSub n (h ++ t) = true := by
  induction h with
  | nil => simpa using hs
  | cons c rest ih => exact listIsSub_cons_of c ih

theorem listIsSub_refl (n : List Char) : listIsSub n n = true :=
  listIsSub_of_startsWith (startsWithL_refl n)

theorem pyIn_append_left {n h : String} (t : String) (hs : pyIn n h = true) :
    pyIn n (h ++ t) = true := by
  unfold pyIn at hs ⊢
  rw [strToList_append]
  exact listIsSub_append_left _ hs

theorem pyIn_append_right {n : String} (h t : String) (hs : pyIn n t = true) :
    pyIn n (h ++ t) = true := by
  unfold pyIn at hs ⊢
  rw [strToList_append]
  exact listIsSub_append_right _ _ hs

theorem pyIn_self (n : String) : pyIn n n = true :=
  listIsSub_refl n.toList

theorem delOccAux_of_not_sub {n : List Char} :
    ∀ {l : List Char}, listIsSub n l = false → delOccAux n 0 l = l := by
  intro l
  induction l with
  | nil => intro _; rfl
  | cons c rest ih =>
    intro h
    simp only [listIsSub, Bool.or_eq_false_iff] at h
    simp only [delOccAux, h.1, Bool.false_eq_true, if_false]
    rw [ih h.2]

theorem dropWhile_self {α : Type} (p : α → Bool) :
    ∀ l : List α, List.dropWhile p (List.dropWhile p l) = List.dropWhile p l := by
  intro l
  induction l with
  | nil => rfl
  | cons c rest ih =>
    by_cases h : p c = true
    · simp [List.dropWhile_cons, h, ih]
    · simp [List.dropWhile_cons, h]

theorem dictFind_dictSet_self {α : Type} (c : Cache α) (k : String) (v : CacheItem α) :
    dictFind (dictSet c k v) k = some v := by
  induction c with
  | nil => simp [dictSet, dictFind]
  | cons p rest ih =>
    by_cases h : p.1 = k
    · simp [dictSet, dictFind, h]
    · simp [dictSet, dictFind, h, ih]

theorem dictFind_eq_none_of_not_mem {α : Type} {c : Cache α} {k : String}
    (h : k ∉ c.map Prod.fst) : dictFind c k = none := by
  induction c with
  | nil => rfl
  | cons p rest ih =>
    simp only [List.map_cons, List.mem_cons] at h
    push_neg at h
    have h1 : p.1 ≠ k := fun he => h.1 he.symm
    simp [dictFind, h1, ih h.2]

theorem dictFind_dictDel_dictSet {α : Type} (c : Cache α) (k : String) (v : CacheItem α)
    (hnd : (c.map Prod.fst).Nodup) :
    dictFind (dictDel (dictSet c k v) k) k = none := by
  induction c with
  | nil => simp [dictSet, dictDel, dictFind]
  | cons p rest ih =>
    simp only [List.map_cons, List.nodup_cons] at hnd
    by_cases h : p.1 = k
    · simp only [dictSet, h, if_true, dictDel, if_true]
      exact dictFind_eq_none_of_not_mem (h ▸ hnd.1)
    · simp only [dictSet, h, if_false, dictDel, if_false]
      simp [dictFind, h, ih hnd.2]

theorem splitChar_ne_nil (sep : Char) : ∀ l : List Char, splitChar sep l ≠ [] := by
  intro l
  induction l with
  | nil => simp [splitChar]
  | cons c rest ih =>
    by_cases h : c == sep
    · simp [splitChar, h]
    · simp only [splitChar, h, Bool.false_eq_true, if_false]
      cases hsp : splitChar sep rest with
      | nil => simp
      | cons a t => simp

theorem splitChar_length (sep : Char) :
    ∀ l : List Char, (splitChar sep l).length = l.count sep + 1 := by
  intro l
  induction l with
  | nil => simp [splitChar]
  | cons c rest ih =>
    by_cases h : c == sep
    · simp [splitChar, h, List.count_cons, ih]
    · simp only [splitChar, h, Bool.false_eq_true, if_false]
      cases hsp : splitChar sep rest with
      | nil => exact absurd hsp (splitChar_ne_nil sep rest)
      | cons a t =>
        rw [hsp] at ih
        simp only [List.length_cons] at ih ⊢
        simp [List.count_cons, h, ih]

theorem splitChar_of_count_zero (sep : Char) :
    ∀ l : List Char, l.count sep = 0 → splitChar sep l = [l] := by
  intro l
  induction l with
  | nil => intro _; rfl
  | cons c rest ih =>
    intro h
    rw [List.count_cons] at h
    have hcs : (c == sep) = false := by
      cases hb : c == sep
      · rfl
      · rw [hb] at h
        simp at h
    rw [hcs] at h
    simp only [Bool.false_eq_true, if_false, Nat.add_zero] at h
    simp only [splitChar, hcs, Bool.false_eq_true, if_false, ih h]

theorem splitChar_getLast? : ∀ l : List Char,
    (splitChar '/' l).getLast? = some (lastPathSegment l) := by
  intro l
  induction l with
  | nil => rfl
  | cons c rest ih =>
    by_cases hc : c = '/'
    · subst hc
      simp only [splitChar, beq_self_eq_true, if_true]
      rw [lastPathSegment, if_pos rfl]
      cases hsp : splitChar '/' rest with
      | nil => exact absurd hsp (splitChar_ne_nil '/' rest)
      | cons a t =>
        rw [hsp] at ih
        rw [List.getLast?_cons_cons]
        exact ih
    · have hcb : (c == '/') = false := by
        cases hb : c == '/'
        · rfl
        · exact absurd (beq_iff_eq.mp hb) hc
      cases hsp : splitChar '/' rest with
      | nil => exact absurd hsp (splitChar_ne_nil '/' rest)
      | cons a t =>
        cases t with
        | nil =>
          have hcount : rest.count '/' = 0 := by
            have hlen := splitChar_length '/' rest
            rw [hsp] at hlen
            simp only [List.length_cons, List.length_nil] at hlen
            omega
          have hrest : a = rest := by
            have := splitChar_of_count_zero '/' rest hcount
            rw [hsp] at this
            exact (List.cons.injEq a [] rest []).mp (congrArg id this) |>.1
          have hmem : '/' ∉ rest := List.count_eq_zero.mp hcount
          simp only [splitChar, hcb, Bool.false_eq_true, if_false, hsp]
          rw [lastPathSegment, if_neg hc, if_neg hmem, hrest]
          rfl
        | cons b t2 =>
          have hmem : '/' ∈ rest := by
            by_contra hmem
            have hcount : rest.count '/' = 0 := List.count_eq_zero.mpr hmem
            have := splitChar_of_count_zero '/' rest hcount
            rw [hsp] at this
            simp at this
          simp only [splitChar, hcb, Bool.false_eq_true, if_false, hsp]
          rw [lastPathSegment, if_neg hc, if_pos hmem]
          rw [List.getLast?_cons_cons]
          rw [hsp, List.getLast?_cons_cons] at ih
          exact ih

theorem addFolderToZip_eq_map (base : String) (fetch : String → String) :
    ∀ l : List FsEntry,
      addFolderToZip base fetch l
        = (flattenFiles l).map (fun pu => (stripRel base pu.1, fetch pu.2))
  | [] => by simp [addFolderToZip, flattenFiles]
  | .file p u :: rest => by
    rw [addFolderToZip, flattenFiles, List.map_cons,
      addFolderToZip_eq_map base fetch rest]
  | .dir q ch :: rest => by
    rw [addFolderToZip, flattenFiles, List.map_append,
      addFolderToZip_eq_map base fetch ch, addFolderToZip_eq_map base fetch rest]
termination_by l => sizeOf l

theorem countFiles_eq_length :
    ∀ l : List FsEntry, countFiles l = (flattenFiles l).length
  | [] => by simp [countFiles, flattenFiles]
  | .file p u :: rest => by
    rw [countFiles, flattenFiles, List.length_cons, countFiles_eq_length rest]
    omega
  | .dir q ch :: rest => by
    rw [countFiles, flattenFiles, List.length_append,
      countFiles_eq_length ch, countFiles_eq_length rest]
termination_by l => sizeOf l

theorem pyInt_error_eq {s : String} {e : PyExn} (h : pyInt s = .error e) :
    e = .valueError := by
  unfold pyInt at h
  split at h <;> split at h <;> simp_all

theorem pyInt_shape (s : String) :
    (∃ n : Int, pyInt s = .ok n) ∨ pyInt s = .error .valueError := by
  cases h : pyInt s with
  | ok n => exact Or.inl ⟨n, rfl⟩
  | error e => exact Or.inr (by rw [pyInt_error_eq h])

/-! ## Claim theorems -/

/-- Claim C1 (code bug witness): the code computes the archive entry name
with `str.replace`, which removes every occurrence of the requested root
path, not only the leading prefix. For the root path "src" and the
discovered file "src/foo/src/a.ts" the code produces "foo//a.ts", while
removing the root only as a leading prefix (as the claim states) gives
"foo/src/a.ts"; the two disagree. -/
theorem c1_replace_corrupts_inner_occurrences :
    stripRel "src" "src/foo/src/a.ts" = "foo//a.ts"
    ∧ specRelPath "src" "src/foo/src/a.ts" = "foo/src/a.ts"
    ∧ stripRel "src" "src/foo/src/a.ts" ≠ specRelPath "src" "src/foo/src/a.ts" :=
  ⟨by decide, by decide, by decide⟩

/-- Claim C2: for every base folder, every (total, i.e. never-failing)
fetch function and every listed tree, the archive produced by the
recursive walk is exactly the image of the discovered file list — each
discovered file contributes exactly one entry, in discovery order, and no
other entry exists; consequently the number of entries equals the file
count computed by `_sync_count_files`. -/
theorem c2_archive_has_exactly_the_discovered_files (base : String)
    (fetch : String → String) (l : List FsEntry) :
    addFolderToZip base fetch l
      = (flattenFiles l).map (fun pu => (stripRel base pu.1, fetch pu.2))
    ∧ (addFolderToZip base fetch l).length = countFiles l := by
  refine ⟨addFolderToZip_eq_map base fetch l, ?_⟩
  rw [addFolderToZip_eq_map base fetch l, List.length_map, countFiles_eq_length l]

/-- Claim C5 (counterexample): the claim "re-stripping an already-stripped
path returns it unchanged" is false at base folder "a/b" and path
"a/a/bb": one strip gives "a/b", stripping that again gives "". -/
theorem c5_counterexample :
    stripRel "a/b" "a/a/bb" = "a/b"
    ∧ stripRel "a/b" (stripRel "a/b" "a/a/bb") = ""
    ∧ stripRel "a/b" (stripRel "a/b" "a/a/bb") ≠ stripRel "a/b" "a/a/bb" :=
  ⟨by decide, by decide, by decide⟩

/-- Claim C5 (amended): the strip computation is idempotent on every input
whose first stripping leaves no occurrence of the base folder in the
result (in particular whenever the base folder no longer occurs as a
substring, e.g. every ordinary path whose remainder does not repeat the
root); re-stripping such a stripped path is a no-op. -/
theorem c5_amended (base p : String)
    (h : base = "" ∨ pyIn base (stripRel base p) = false) :
    stripRel base (stripRel base p) = stripRel base p := by
  by_cases hb : base = ""
  · simp [stripRel, hb]
  · have hs : listIsSub base.toList
        (lstripSlash (delOccAux base.toList 0 p.toList)) = false := by
      rcases h with h | h
      · exact absurd h hb
      · unfold pyIn stripRel at h
        rw [if_neg hb] at h
        exact h
    have hlist : lstripSlash (delOccAux base.toList 0
          (lstripSlash (delOccAux base.toList 0 p.toList)))
        = lstripSlash (delOccAux base.toList 0 p.toList) := by
      rw [delOccAux_of_not_sub hs]
      unfold lstripSlash
      rw [dropWhile_self]
    show stripRel base (stripRel base p) = stripRel base p
    unfold stripRel
    rw [if_neg hb, if_neg hb]
    exact congrArg String.mk hlist

/-- Claim C5 witness for the amended statement: for base folder "src" and
path "src/foo/a.ts" the stripped path "foo/a.ts" does not contain "src",
and re-stripping leaves it unchanged. -/
theorem c5_amended_witness :
    stripRel "src" (stripRel "src" "src/foo/a.ts") = stripRel "src" "src/foo/a.ts" :=
  c5_amended "src" "src/foo/a.ts" (Or.inr (by decide))

/-- Claim C6: putting a value and reading it back at the same instant
returns the value (for any positive TTL), and once the TTL has elapsed
since insertion the read reports absent and deletes the expired entry
from the cache. The no-duplicate-keys hypothesis is the representation
invariant of a Python dict in the association-list model. -/
theorem c6_cache_put_get_ttl {α : Type} (c : Cache α) (k : String) (v : α)
    (t ttl : Int) (hnd : (c.map Prod.fst).Nodup) (httl : 0 < ttl) :
    getFromCache (addToCache c k v t) ttl t k = (some v, addToCache c k v t)
    ∧ ∀ now : Int, ttl ≤ now - t →
        (getFromCache (addToCache c k v t) ttl now k).1 = none
        ∧ dictFind (getFromCache (addToCache c k v t) ttl now k).2 k = none := by
  have hf : dictFind (addToCache c k v t) k = some ⟨t, v⟩ :=
    dictFind_dictSet_self c k ⟨t, v⟩
  constructor
  · unfold getFromCache
    rw [hf]
    simp only
    rw [if_pos (by omega : t - t < ttl)]
  · intro now hnow
    unfold getFromCache
    rw [hf]
    simp only
    rw [if_neg (by omega : ¬ now - t < ttl)]
    exact ⟨rfl, dictFind_dictDel_dictSet c k ⟨t, v⟩ hnd⟩

/-- Claim C6 witness: a put of 5 at time 0 read back at time 0 with the
default TTL of 300 returns 5; read at time 300 it is absent and the entry
is gone. -/
theorem c6_witness :
    getFromCache (addToCache ([] : Cache Nat) "k" 5 0) 300 0 "k"
        = (some 5, addToCache ([] : Cache Nat) "k" 5 0)
    ∧ (getFromCache (addToCache ([] : Cache Nat) "k" 5 0) 300 300 "k").1 = none
    ∧ dictFind (getFromCache (addToCache ([] : Cache Nat) "k" 5 0) 300 300 "k").2 "k"
        = none := by
  have h := c6_cache_put_get_ttl ([] : Cache Nat) "k" 5 0 300 (by simp) (by decide)
  exact ⟨h.1, (h.2 300 (by decide)).1, (h.2 300 (by decide)).2⟩

theorem applyResetStep_exn (st1 : RateLimitState) (h : Option String) :
    (applyResetStep st1 h).2 = none ∨ (applyResetStep st1 h).2 = some .valueError := by
  cases h with
  | none => exact Or.inl rfl
  | some s =>
    rcases pyInt_shape s with ⟨m, hm⟩ | hm
    · left
      simp [applyResetStep, hm, applyResetParsed]
    · right
      simp [applyResetStep, hm, applyResetParsed]

theorem updateRateLimitBody_exn (st : RateLimitState) (h1 h2 : Option String) :
    (updateRateLimitBody st h1 h2).2 = none
    ∨ (updateRateLimitBody st h1 h2).2 = some .valueError := by
  cases h1 with
  | none =>
    simp only [updateRateLimitBody]
    exact applyResetStep_exn st h2
  | some s =>
    simp only [updateRateLimitBody]
    rcases pyInt_shape s with ⟨n, hn⟩ | hn
    · rw [hn]
      simp only [applyRemParsed]
      exact applyResetStep_exn _ h2
    · rw [hn]
      simp [applyRemParsed]

theorem updateRateLimit_ok (st : RateLimitState) (h1 h2 : Option String) :
    updateRateLimit st h1 h2 = .ok (updateRateLimitRun st h1 h2) := by
  unfold updateRateLimit updateRateLimitRun
  rcases hb : updateRateLimitBody st h1 h2 with ⟨a, b⟩
  rcases updateRateLimitBody_exn st h1 h2 with h | h <;> rw [hb] at h <;>
    simp only at h <;> subst h <;> rfl

theorem applyResetStep_remaining (st1 : RateLimitState) (h : Option String) :
    ((applyResetStep st1 h).1).remaining = st1.remaining := by
  cases h with
  | none => rfl
  | some s =>
    rcases pyInt_shape s with ⟨m, hm⟩ | hm <;>
      simp [applyResetStep, hm, applyResetParsed]

/-- Claim C8: the rate-limit update never raises (`int` failures are
`ValueError`, which the handler swallows together with `TypeError`), and
a missing remaining-count or reset-epoch header leaves the corresponding
field at its prior value. -/
theorem c8_rate_limit_update (st : RateLimitState) (h1 h2 : Option String) :
    (∃ st2 : RateLimitState, updateRateLimit st h1 h2 = .ok st2)
    ∧ (h1 = none → (updateRateLimitRun st h1 h2).remaining = st.remaining)
    ∧ (h2 = none → (updateRateLimitRun st h1 h2).resetAt = st.resetAt) := by
  refine ⟨⟨updateRateLimitRun st h1 h2, updateRateLimit_ok st h1 h2⟩, ?_, ?_⟩
  · intro he
    subst he
    unfold updateRateLimitRun
    simp only [updateRateLimitBody]
    exact applyResetStep_remaining st h2
  · intro he
    subst he
    unfold updateRateLimitRun
    cases h1 with
    | none => rfl
    | some s1 =>
      simp only [updateRateLimitBody]
      rcases pyInt_shape s1 with ⟨n, hn⟩ | hn <;>
        rw [hn] <;> simp [applyRemParsed, applyResetStep]

/-- Claim C8 witness: with both headers absent the update returns normally
and keeps remaining = 5000 and reset = 0. -/
theorem c8_witness :
    (∃ st2 : RateLimitState, updateRateLimit ⟨5000, 0⟩ none none = .ok st2)
    ∧ (updateRateLimitRun ⟨5000, 0⟩ none none).remaining = 5000
    ∧ (updateRateLimitRun ⟨5000, 0⟩ none none).resetAt = 0 := by
  have h := c8_rate_limit_update ⟨5000, 0⟩ none none
  exact ⟨h.1, h.2.1 rfl, h.2.2 rfl⟩

/-- Claim C9: a cached, unexpired but empty value (empty directory listing
or empty file bytes) is treated as a miss by the callers of the cache: both the
directory-listing shell and the per-file shell return the freshly fetched
value and overwrite the cache with it. -/
theorem c9_empty_values_refetch {α : Type} (c : Cache (List α)) (key : String)
    (t ttl now : Int) (fetched : List α)
    (cf : Cache (List Nat)) (url : String) (tf : Int) (fb : List Nat)
    (h1 : dictFind c key = some ⟨t, []⟩) (h2 : now - t < ttl)
    (h3 : dictFind cf ("file:" ++ url) = some ⟨tf, []⟩) (h4 : now - tf < ttl) :
    (getRepoContents c ttl now key fetched).1 = fetched
    ∧ (getRepoContents c ttl now key fetched).2 = addToCache c key fetched now
    ∧ (processFileContent cf ttl now url fb).1 = fb
    ∧ (processFileContent cf ttl now url fb).2
        = addToCache cf ("file:" ++ url) fb now := by
  unfold getRepoContents processFileContent getFromCache
  rw [h1, h3]
  simp [h2, h4]

/-- Claim C9 witness: a cache holding an empty listing under "k" and empty
bytes under "file:u", both inserted at time 0 and read at time 10 with
TTL 300, still yields the fetched values. -/
theorem c9_witness :
    (getRepoContents [("k", ⟨0, ([] : List Nat)⟩)] 300 10 "k" [7]).1 = [7]
    ∧ (processFileContent [("file:u", ⟨0, ([] : List Nat)⟩)] 300 10 "u" [9]).1 = [9] := by
  have h := c9_empty_values_refetch [("k", ⟨0, ([] : List Nat)⟩)] "k" 0 300 10 [7]
    [("file:u", ⟨0, ([] : List Nat)⟩)] "u" 0 [9] rfl (by decide) rfl (by decide)
  exact ⟨h.1, h.2.2.1⟩

/-- Claim C10: reading the result of a completed background task does not
consume it: with the task in the completed store with status "completed",
a result carrying a filename, and bytes in the file store, every call to
`get_download_file` (the second as well as the first) returns the same
stored bytes and filename, and the stores are unchanged. -/
theorem c10_download_not_consumed (st : ControllerState) (tid : String)
    (info : TaskInfo) (r : TaskResult) (bytes : List Nat)
    (h1 : alFind st.completedTasks tid = some info)
    (h2 : info.status = "completed")
    (h3 : info.result = some r)
    (h4 : alFind st.fileStorage tid = some bytes) :
    getDownloadFile st tid = (.ok (bytes, r.filename), st)
    ∧ getDownloadFile (getDownloadFile st tid).2 tid
        = (.ok (bytes, r.filename), st) := by
  have he : getDownloadFile st tid = (.ok (bytes, r.filename), st) := by
    unfold getDownloadFile
    rw [h1]
    simp only [h2, h3, h4, if_true]
  exact ⟨he, by rw [he]; exact he⟩

/-- Claim C10 witness: a concrete completed task "t1" with stored bytes
`[1, 2, 3]` and filename "o_r_app.zip" can be fetched twice with the same
result and untouched stores. -/
theorem c10_witness :
    getDownloadFile
        ⟨[("t1", ⟨"completed", some ⟨"o_r_app.zip", 3, "t1"⟩⟩)], [("t1", [1, 2, 3])]⟩ "t1"
      = (.ok ([1, 2, 3], "o_r_app.zip"),
        ⟨[("t1", ⟨"completed", some ⟨"o_r_app.zip", 3, "t1"⟩⟩)], [("t1", [1, 2, 3])]⟩) := by
  have h := c10_download_not_consumed
    ⟨[("t1", ⟨"completed", some ⟨"o_r_app.zip", 3, "t1"⟩⟩)], [("t1", [1, 2, 3])]⟩
    "t1" ⟨"completed", some ⟨"o_r_app.zip", 3, "t1"⟩⟩ ⟨"o_r_app.zip", 3, "t1"⟩
    [1, 2, 3] rfl rfl rfl rfl
  exact h.1

/-- Sample rendering of a reset epoch, standing in for the strftime
output in concrete instantiations. -/
def fmtTimeSample : Int → String := fun _ => "2025-01-01 10:00:00"

/-- Claim C3: the classification of a directory-listing response agrees
with the order and kinds stated in the spec (401 → authentication regardless of the
remaining quota, 403 with zero remaining → rate limit, 403 otherwise →
permission, 404 → not found, other non-200 → upstream carrying the
origin message, 200 → nothing); in the rate-limit case the message
contains the rendered reset time. -/
theorem c3_classification (fmt : Int → String) (st : RateLimitState)
    (resp : HttpResponse) :
    ((classifyContents fmt st resp).2.map GhError.kind
      = specClassifyKind resp.status
          (updateRateLimitRun st resp.rlRemainingHeader resp.rlResetHeader).remaining)
    ∧ (resp.status = 403 →
        (updateRateLimitRun st resp.rlRemainingHeader resp.rlResetHeader).remaining = 0 →
        ∃ e : GhError, (classifyContents fmt st resp).2 = some e
          ∧ pyIn (fmt (updateRateLimitRun st resp.rlRemainingHeader
              resp.rlResetHeader).resetAt) e.msg = true)
    ∧ (resp.status ≠ 200 → resp.status ≠ 401 → resp.status ≠ 403 →
        resp.status ≠ 404 →
        (classifyContents fmt st resp).2
          = some (.upstreamError (upstreamMsgContents
              (resp.jsonMessage.getD "Unknown error")))) := by
  refine ⟨?_, ?_, ?_⟩
  · by_cases h401 : resp.status = 401
    · simp [classifyContents, specClassifyKind, h401, GhError.kind]
    · by_cases h403 : resp.status = 403
      · by_cases hrem : (updateRateLimitRun st resp.rlRemainingHeader
            resp.rlResetHeader).remaining = 0
        · simp [classifyContents, specClassifyKind, h401, h403, hrem, GhError.kind]
        · simp [classifyContents, specClassifyKind, h401, h403, hrem, GhError.kind]
      · by_cases h404 : resp.status = 404
        · simp [classifyContents, specClassifyKind, h401, h403, h404, GhError.kind]
        · by_cases h200 : resp.status = 200
          · simp [classifyContents, specClassifyKind, h401, h403, h404, h200]
          · simp [classifyContents, specClassifyKind, h401, h403, h404, h200,
              GhError.kind]
  · intro h403 hrem
    refine ⟨.rateLimitExceeded (rateLimitMsg (fmt (updateRateLimitRun st
      resp.rlRemainingHeader resp.rlResetHeader).resetAt)), ?_, ?_⟩
    · simp [classifyContents, h403, hrem]
    · show pyIn _ (rateLimitMsg _) = true
      exact pyIn_append_right _ _ (pyIn_self _)
  · intro hne200 hne401 hne403 hne404
    simp [classifyContents, hne200, hne401, hne403, hne404]

/-- Claim C3 witness: a 403 response whose headers report zero remaining
quota yields the rate-limit error with the rendered reset time in its
message, and a 500 response with origin message "boom" yields the
upstream error carrying it. -/
theorem c3_witness :
    (∃ e : GhError,
      (classifyContents fmtTimeSample ⟨5000, 0⟩
          ⟨403, some "0", some "1700000000", none⟩).2 = some e
      ∧ pyIn (fmtTimeSample (updateRateLimitRun ⟨5000, 0⟩ (some "0")
          (some "1700000000")).resetAt) e.msg = true)
    ∧ (classifyContents fmtTimeSample ⟨5000, 0⟩ ⟨500, none, none, some "boom"⟩).2
        = some (.upstreamError (upstreamMsgContents "boom")) := by
  constructor
  · exact (c3_classification fmtTimeSample ⟨5000, 0⟩
      ⟨403, some "0", some "1700000000", none⟩).2.1 rfl (by decide)
  · exact (c3_classification fmtTimeSample ⟨5000, 0⟩
      ⟨500, none, none, some "boom"⟩).2.2 (by decide) (by decide) (by decide)
      (by decide)

/-- Claim C4 (counterexample): a 403 response with remaining quota raises
the permission error, but the substring mapping of the controller sends the
directory-listing permission message ("Insufficient permissions. …",
capital I, missed by the case-sensitive "insufficient permissions" test)
to HTTP 500, and the file-download permission message ("API rate limit
exceeded or insufficient permissions.") to HTTP 429 because the
rate-limit substring test fires first — not to 403 as the claim states. -/
theorem c4_counterexample :
    (classifyContents fmtTimeSample ⟨1, 0⟩ ⟨403, none, none, none⟩).2
      = some (.permissionError permMsgContents)
    ∧ statusForError permMsgContents = 500
    ∧ (classifyFile fmtTimeSample ⟨1, 0⟩ ⟨403, none, none, none⟩).2
      = some (.permissionError permMsgFile)
    ∧ statusForError permMsgFile = 429 :=
  ⟨by decide, by decide, by decide, by decide⟩

/-- Claim C4 (amended): the controller maps authentication messages to
401, rate-limit messages to 429, the not-found message to 404 and
upstream messages to 500; but permission errors are misrouted: the
directory-listing permission message maps to 500 (its capital
"Insufficient" misses the lowercase substring test) and the file-download
permission message maps to 429 (it contains "API rate limit exceeded").
The hypotheses state that the strftime-rendered reset time and the
origin message do not themselves contain the marker substring of an
earlier branch. -/
theorem c4_amended (t m : String)
    (h1 : pyIn "Authentication failed" (rateLimitMsg t) = false)
    (h2 : pyIn "Authentication failed" (upstreamMsgContents m) = false)
    (h3 : pyIn "API rate limit exceeded" (upstreamMsgContents m) = false)
    (h4 : pyIn "Repository or path not found" (upstreamMsgContents m) = false)
    (h5 : pyIn "insufficient permissions" (upstreamMsgContents m) = false) :
    statusForError authFailMsgContents = 401
    ∧ statusForError authFailMsgFile = 401
    ∧ statusForError (rateLimitMsg t) = 429
    ∧ statusForError notFoundMsgContents = 404
    ∧ statusForError permMsgContents = 500
    ∧ statusForError permMsgFile = 429
    ∧ statusForError (upstreamMsgContents m) = 500
    ∧ statusForError (upstreamMsgFile 502) = 500 := by
  have h9 : pyIn "API rate limit exceeded" (rateLimitMsg t) = true :=
    pyIn_append_left t (by decide)
  refine ⟨by decide, by decide, ?_, by decide, by decide, by decide, ?_, by decide⟩
  · simp [statusForError, h1, h9]
  · simp [statusForError, h2, h3, h4, h5]

/-- Claim C4 witness for the amended statement: with a concrete reset-time
rendering and a concrete origin message, the rate-limit message maps to
429 and the upstream message maps to 500. -/
theorem c4_amended_witness :
    statusForError (rateLimitMsg "2025-01-01 10:00:00") = 429
    ∧ statusForError (upstreamMsgContents "Server Error") = 500 := by
  obtain ⟨a1, a2, a3, a4, a5, a6, a7, a8⟩ :=
    c4_amended "2025-01-01 10:00:00" "Server Error" (by decide) (by decide)
      (by decide) (by decide) (by decide)
  exact ⟨a3, a7⟩

/-- Claim C7 (counterexample): the archive filename contains no Unix
timestamp: for owner "octo", repository "hello" and folder path
"src/app" the code produces "octo_hello_app.zip", which is not of the
form "octo_hello_app_{timestamp}.zip" for any timestamp. -/
theorem c7_counterexample :
    ¬ ∃ ts : Nat, mkFilename "octo" "hello" "src/app"
        = "octo" ++ "_" ++ "hello" ++ "_" ++ "app" ++ "_" ++ toString ts ++ ".zip" := by
  rintro ⟨ts, h⟩
  have he : mkFilename "octo" "hello" "src/app" = "octo_hello_app.zip" := by decide
  rw [he] at h
  have hl := congrArg String.length h
  rw [String.length_append, String.length_append, String.length_append,
    String.length_append, String.length_append, String.length_append,
    String.length_append,
    show ("octo_hello_app.zip" : String).length = 18 from rfl,
    show ("octo" : String).length = 4 from rfl,
    show ("_" : String).length = 1 from rfl,
    show ("hello" : String).length = 5 from rfl,
    show ("app" : String).length = 3 from rfl,
    show (".zip" : String).length = 4 from rfl] at hl
  omega

/-- Claim C7 (amended): the filename is
`{owner}_{repo}_{lastPathSegment-or-repo}.zip` with no timestamp: the
third segment is the text after the final slash of the folder path once
leading and trailing slashes are stripped, or the repository name when
the stripped path is empty. -/
theorem c7_amended (owner repo path : String) :
    mkFilename owner repo path
      = owner ++ "_" ++ repo ++ "_"
        ++ (if pyStripSlashes path = "" then repo
            else String.mk (lastPathSegment (pyStripSlashes path).toList))
        ++ ".zip" := by
  simp only [mkFilename]
  by_cases h : pyStripSlashes path = ""
  · simp [h]
  · simp only [h, if_false]
    have hx : (splitChar '/' (pyStripSlashes path).toList).getLastD []
        = lastPathSegment (pyStripSlashes path).toList := by
      rw [List.getLastD_eq_getLast?, splitChar_getLast?]
      rfl
    rw [hx]

end RepoZip
